import Mathlib

/-!
Verification development for the smoke-simulation kernel
(`smoke_simulation.py`).

The Python kernel is shallowly embedded over exact rationals.  Where the
source calls transcendental library functions we abstract them as explicit
function parameters:

* `sn`, `co : ℚ → ℚ` stand for `math.sin` / `math.cos` in the layered
  potential (the claims proved about the field hold for every choice);
* `sqrtQ : ℚ → ℚ` stands for `math.sqrt`; theorems that depend on its
  value state the needed facts (for example `sqrtQ 0 = 0`, or that it is
  a nonnegative square root of the one value it is applied to) as
  hypotheses, each discharged on a concrete input by a witness;
* `hyp : ℚ → ℚ → ℚ` stands for `math.hypot` in obstacle collision.

Fallible code is embedded in `Option`: `Particle.update` returns `none`
exactly when the Python code would raise `ZeroDivisionError` (the
`nx = dx / dist` line with `dist = 0` during collision resolution).
-/

namespace SmokeSim

/-- Embedding of `SimulationParams` (the physics-relevant fields; the
display-only booleans are out of kernel scope). -/
structure Params where
  gravity : ℚ
  buoyancy : ℚ
  wind : ℚ
  drag : ℚ
  turbulence_strength : ℚ
  noise_scale : ℚ
  use_rk4 : Bool
  time : ℚ
  smoothing_radius : ℚ
  target_density : ℚ
  pressure_multiplier : ℚ
deriving DecidableEq

/-- The constructor defaults of `SimulationParams.__init__`. -/
def Params.defaults : Params :=
  { gravity := 1/20, buoyancy := 1/10, wind := 0, drag := 99/100,
    turbulence_strength := 1/2, noise_scale := 1/200, use_rk4 := true,
    time := 0, smoothing_radius := 30, target_density := 1,
    pressure_multiplier := 1/10 }

/-- Embedding of the mutable `Particle` record (`__slots__` fields). -/
structure Particle where
  x : ℚ
  y : ℚ
  vx : ℚ
  vy : ℚ
  ax : ℚ
  ay : ℚ
  life : ℚ
  decay : ℚ
  radius : ℚ
  growth : ℚ
  density : ℚ
  pressure : ℚ
deriving DecidableEq

/-- `Particle.apply_force`: accumulate a force into the pending
acceleration. -/
def Particle.apply_force (p : Particle) (fx fy : ℚ) : Particle :=
  { p with ax := p.ax + fx, ay := p.ay + fy }

/-- Embedding of `Obstacle` (geometry only). -/
structure Obstacle where
  x : ℚ
  y : ℚ
  radius : ℚ
deriving DecidableEq

/-- Python `int()` applied to a rational: truncation toward zero. -/
def pyInt (q : ℚ) : ℤ := if 0 ≤ q then ⌊q⌋ else ⌈q⌉

/-! ## VectorGrid: the procedural curl-noise field -/

/-- `VectorGrid.get_potential`: three octaves of
`sin(x·s·k + t·ω) + cos(y·s·k + t·ω)`.  `sn` and `co` abstract
`math.sin` and `math.cos`. -/
def VectorGrid.get_potential (sn co : ℚ → ℚ) (scale : ℚ) (x y t : ℚ) : ℚ :=
  (sn (x * scale + t) + co (y * scale + t))
  + (1/2) * (sn (x * scale * 2 + t * (3/2)) + co (y * scale * 2 + t * (3/2)))
  + (1/4) * (sn (x * scale * 4 + t * 2) + co (y * scale * 4 + t * 2))

/-- `VectorGrid.compute_curl`: central finite differences of the potential
with step epsilon = 1, returning `(dy, -dx)`.  The potential is passed as
the function parameter `P` (in the source it is `self.get_potential`). -/
def VectorGrid.compute_curl (P : ℚ → ℚ → ℚ → ℚ) (x y t : ℚ) : ℚ × ℚ :=
  ((P x (y + 1) t - P x (y - 1) t) / (2 * 1),
   -((P (x + 1) y t - P (x - 1) y t) / (2 * 1)))

/-- `VectorGrid.get_force`: identical to `compute_curl`. -/
def VectorGrid.get_force (P : ℚ → ℚ → ℚ → ℚ) (x y t : ℚ) : ℚ × ℚ :=
  VectorGrid.compute_curl P x y t

/-- The discrete divergence estimator named by the claim: central
differences of the force components with the same step epsilon = 1. -/
def discreteDiv (F : ℚ → ℚ → ℚ → ℚ × ℚ) (x y t : ℚ) : ℚ :=
  ((F (x + 1) y t).1 - (F (x - 1) y t).1) / (2 * 1)
  + ((F x (y + 1) t).2 - (F x (y - 1) t).2) / (2 * 1)

/-! ## RK4 turbulence sampling in Particle.update -/

/-- The RK4 turbulence branch of `Particle.update`: four samples of
`vector_grid.get_force` with `dt = 1.0` and `dt_time = 0.01`, blended as
`(k1 + 2 k2 + 2 k3 + k4) / 6` and scaled by the turbulence strength `s`.
`F` abstracts `vector_grid.get_force`. -/
def rk4TurbForce (F : ℚ → ℚ → ℚ → ℚ × ℚ) (x y vx vy t s : ℚ) : ℚ × ℚ :=
  let dt : ℚ := 1
  let dt_time : ℚ := 1/100
  let k1 := F x y t
  let k2 := F (x + vx * (1/2) * dt) (y + vy * (1/2) * dt) (t + (1/2) * dt_time)
  let k3 := F (x + vx * (1/2) * dt) (y + vy * (1/2) * dt) (t + (1/2) * dt_time)
  let k4 := F (x + vx * dt) (y + vy * dt) (t + dt_time)
  (((k1.1 + 2 * k2.1 + 2 * k3.1 + k4.1) / 6) * s,
   ((k1.2 + 2 * k2.2 + 2 * k3.2 + k4.2) / 6) * s)

/-- Modelled from the claim's words (refinement target): the simplified
three-sample scheme `(k1 + 4 k2 + k4) / 6`, sampled at the start point,
the velocity-extrapolated half-step position with half-step time, and the
full-step endpoint, scaled by turbulence strength. -/
def threeSampleTurbForce (F : ℚ → ℚ → ℚ → ℚ × ℚ) (x y vx vy t s : ℚ) : ℚ × ℚ :=
  let k1 := F x y t
  let k2 := F (x + vx * (1/2)) (y + vy * (1/2)) (t + 1/200)
  let k4 := F (x + vx) (y + vy) (t + 1/100)
  (((k1.1 + 4 * k2.1 + k4.1) / 6) * s,
   ((k1.2 + 4 * k2.2 + k4.2) / 6) * s)

/-- C2: for every choice of sine/cosine implementation, every noise
scale, and every point and time, the discrete central-difference
divergence (step epsilon = 1) of the force field produced by
`VectorGrid.get_force` over `VectorGrid.get_potential` is exactly zero. -/
theorem curl_field_divergence_free (sn co : ℚ → ℚ) (scale x y t : ℚ) :
    discreteDiv (VectorGrid.get_force (VectorGrid.get_potential sn co scale)) x y t = 0 := by
  simp only [discreteDiv, VectorGrid.get_force, VectorGrid.compute_curl]
  ring

/-- C4: because k2 and k3 are computed from identical position and time
arguments, the RK4 turbulence blend `(k1 + 2 k2 + 2 k3 + k4)/6` scaled by
turbulence strength coincides, for every field and every particle state,
with the simplified three-sample scheme `(k1 + 4 k2 + k4)/6` scaled the
same way. -/
theorem rk4_collapses_to_three_samples (F : ℚ → ℚ → ℚ → ℚ × ℚ) (x y vx vy t s : ℚ) :
    rk4TurbForce F x y vx vy t s = threeSampleTurbForce F x y vx vy t s := by
  have h2 : ((1:ℚ)/2) * (1/100) = 1/200 := by norm_num
  simp only [rk4TurbForce, threeSampleTurbForce, mul_one, h2]
  rw [Prod.ext_iff]
  constructor <;> ring

/-! ## FixedGrid: the uniform spatial index -/

/-- Embedding of `FixedGrid`.  The per-cell particle lists are a function
of the (row, column) cell index; `cols` and `rows` are derived from the
immutable `width`, `height`, `cell_size` exactly as in `__init__`. -/
structure FixedGrid where
  width : ℚ
  height : ℚ
  cell_size : ℚ
  cells : ℤ → ℤ → List Particle

/-- `math.ceil(width / cell_size)` from `FixedGrid.__init__`. -/
def FixedGrid.cols (g : FixedGrid) : ℤ := ⌈g.width / g.cell_size⌉

/-- `math.ceil(height / cell_size)` from `FixedGrid.__init__`. -/
def FixedGrid.rows (g : FixedGrid) : ℤ := ⌈g.height / g.cell_size⌉

/-- A freshly constructed (or cleared) grid: every cell empty. -/
def FixedGrid.empty (w h c : ℚ) : FixedGrid :=
  { width := w, height := h, cell_size := c, cells := fun _ _ => [] }

/-- The bounds test of `FixedGrid.insert`:
`0 <= cx < self.cols and 0 <= cy < self.rows` for the truncated cell
coordinates of the particle. -/
def inCellBounds (g : FixedGrid) (p : Particle) : Prop :=
  0 ≤ pyInt (p.x / g.cell_size) ∧ pyInt (p.x / g.cell_size) < g.cols ∧
  0 ≤ pyInt (p.y / g.cell_size) ∧ pyInt (p.y / g.cell_size) < g.rows

instance (g : FixedGrid) (p : Particle) : Decidable (inCellBounds g p) :=
  inferInstanceAs (Decidable (_ ∧ _ ∧ _ ∧ _))

/-- `FixedGrid.insert`: append the particle to its cell when the cell
coordinates are in range, otherwise leave the grid unchanged. -/
def FixedGrid.insert (g : FixedGrid) (p : Particle) : FixedGrid :=
  if inCellBounds g p then
    { g with cells := fun r c =>
        if r = pyInt (p.y / g.cell_size) ∧ c = pyInt (p.x / g.cell_size)
        then g.cells r c ++ [p] else g.cells r c }
  else g

/-- `FixedGrid.query`: scan the 3 by 3 block of cells around the query
point's cell (clipped to the grid), keeping particles whose squared
distance to the query point is at most `radius * radius`. -/
def FixedGrid.query (g : FixedGrid) (x y radius : ℚ) : List Particle :=
  ([pyInt (y / g.cell_size) - 1, pyInt (y / g.cell_size),
    pyInt (y / g.cell_size) + 1]).flatMap fun r =>
    ([pyInt (x / g.cell_size) - 1, pyInt (x / g.cell_size),
      pyInt (x / g.cell_size) + 1]).flatMap fun c =>
      if 0 ≤ r ∧ r < g.rows ∧ 0 ≤ c ∧ c < g.cols then
        (g.cells r c).filter fun p =>
          decide ((p.x - x) * (p.x - x) + (p.y - y) * (p.y - y) ≤ radius * radius)
      else []

/-- The per-frame index rebuild: `clear()` followed by `insert` over each
live particle in order. -/
def insertAll (g : FixedGrid) (ps : List Particle) : FixedGrid :=
  ps.foldl FixedGrid.insert g

/-! ### Grid characterization lemmas -/

lemma FixedGrid.insert_width (g : FixedGrid) (p : Particle) :
    (g.insert p).width = g.width := by
  unfold FixedGrid.insert; split <;> rfl

lemma FixedGrid.insert_height (g : FixedGrid) (p : Particle) :
    (g.insert p).height = g.height := by
  unfold FixedGrid.insert; split <;> rfl

lemma FixedGrid.insert_cell_size (g : FixedGrid) (p : Particle) :
    (g.insert p).cell_size = g.cell_size := by
  unfold FixedGrid.insert; split <;> rfl

lemma FixedGrid.insert_cols (g : FixedGrid) (p : Particle) :
    (g.insert p).cols = g.cols := by
  unfold FixedGrid.cols; rw [insert_width, insert_cell_size]

lemma FixedGrid.insert_rows (g : FixedGrid) (p : Particle) :
    (g.insert p).rows = g.rows := by
  unfold FixedGrid.rows; rw [insert_height, insert_cell_size]

lemma inCellBounds_insert (g : FixedGrid) (p q : Particle) :
    inCellBounds (g.insert p) q ↔ inCellBounds g q := by
  unfold inCellBounds
  rw [FixedGrid.insert_cell_size, FixedGrid.insert_cols, FixedGrid.insert_rows]

lemma mem_insert_cells (g : FixedGrid) (p q : Particle) (r c : ℤ) :
    q ∈ (g.insert p).cells r c ↔
      q ∈ g.cells r c ∨
        (inCellBounds g p ∧ q = p ∧
          r = pyInt (p.y / g.cell_size) ∧ c = pyInt (p.x / g.cell_size)) := by
  unfold FixedGrid.insert
  split
  · rename_i hb
    dsimp only
    split
    · rename_i hrc
      simp only [List.mem_append, List.mem_singleton]
      constructor
      · rintro (h | h)
        · exact Or.inl h
        · exact Or.inr ⟨hb, h, hrc.1, hrc.2⟩
      · rintro (h | ⟨_, h, _, _⟩)
        · exact Or.inl h
        · exact Or.inr h
    · rename_i hrc
      constructor
      · exact Or.inl
      · rintro (h | ⟨_, _, h1, h2⟩)
        · exact h
        · exact absurd ⟨h1, h2⟩ hrc
  · rename_i hb
    constructor
    · exact Or.inl
    · rintro (h | ⟨h1, _, _, _⟩)
      · exact h
      · exact absurd h1 hb

lemma insertAll_width (g : FixedGrid) (ps : List Particle) :
    (insertAll g ps).width = g.width := by
  induction ps generalizing g with
  | nil => rfl
  | cons p ps ih => rw [insertAll, List.foldl_cons, ← insertAll, ih, FixedGrid.insert_width]

lemma insertAll_height (g : FixedGrid) (ps : List Particle) :
    (insertAll g ps).height = g.height := by
  induction ps generalizing g with
  | nil => rfl
  | cons p ps ih => rw [insertAll, List.foldl_cons, ← insertAll, ih, FixedGrid.insert_height]

lemma insertAll_cell_size (g : FixedGrid) (ps : List Particle) :
    (insertAll g ps).cell_size = g.cell_size := by
  induction ps generalizing g with
  | nil => rfl
  | cons p ps ih => rw [insertAll, List.foldl_cons, ← insertAll, ih, FixedGrid.insert_cell_size]

lemma insertAll_cols (g : FixedGrid) (ps : List Particle) :
    (insertAll g ps).cols = g.cols := by
  unfold FixedGrid.cols; rw [insertAll_width, insertAll_cell_size]

lemma insertAll_rows (g : FixedGrid) (ps : List Particle) :
    (insertAll g ps).rows = g.rows := by
  unfold FixedGrid.rows; rw [insertAll_height, insertAll_cell_size]

lemma mem_insertAll_cells (ps : List Particle) (g : FixedGrid) (q : Particle) (r c : ℤ) :
    q ∈ (insertAll g ps).cells r c ↔
      q ∈ g.cells r c ∨
        (q ∈ ps ∧ inCellBounds g q ∧
          r = pyInt (q.y / g.cell_size) ∧ c = pyInt (q.x / g.cell_size)) := by
  induction ps generalizing g with
  | nil => simp [insertAll]
  | cons p ps ih =>
    rw [insertAll, List.foldl_cons, ← insertAll, ih, mem_insert_cells]
    rw [inCellBounds_insert, FixedGrid.insert_cell_size]
    constructor
    · rintro ((h | ⟨hb, rfl, h1, h2⟩) | ⟨hm, hb, h1, h2⟩)
      · exact Or.inl h
      · exact Or.inr ⟨List.mem_cons_self _ _, hb, h1, h2⟩
      · exact Or.inr ⟨List.mem_cons_of_mem _ hm, hb, h1, h2⟩
    · rintro (h | ⟨hm, hb, h1, h2⟩)
      · exact Or.inl (Or.inl h)
      · rcases List.mem_cons.mp hm with rfl | hm
        · exact Or.inl (Or.inr ⟨hb, rfl, h1, h2⟩)
        · exact Or.inr ⟨hm, hb, h1, h2⟩

lemma mem_ite_nil {α : Type} (P : Prop) [Decidable P] (l : List α) (a : α) :
    a ∈ (if P then l else []) ↔ P ∧ a ∈ l := by
  split <;> rename_i h <;> simp [h]

lemma mem_query (g : FixedGrid) (x y rad : ℚ) (q : Particle) :
    q ∈ g.query x y rad ↔
      ∃ r c : ℤ,
        (r = pyInt (y / g.cell_size) - 1 ∨ r = pyInt (y / g.cell_size) ∨
          r = pyInt (y / g.cell_size) + 1) ∧
        (c = pyInt (x / g.cell_size) - 1 ∨ c = pyInt (x / g.cell_size) ∨
          c = pyInt (x / g.cell_size) + 1) ∧
        (0 ≤ r ∧ r < g.rows ∧ 0 ≤ c ∧ c < g.cols) ∧
        q ∈ g.cells r c ∧
        (q.x - x) * (q.x - x) + (q.y - y) * (q.y - y) ≤ rad * rad := by
  unfold FixedGrid.query
  simp only [List.mem_flatMap, mem_ite_nil, List.mem_filter, List.mem_cons,
    List.mem_singleton, List.not_mem_nil, or_false, decide_eq_true_eq]
  constructor
  · rintro ⟨r, hr, c, hc, hbound, hq, hd⟩
    exact ⟨r, c, hr, hc, hbound, hq, hd⟩
  · rintro ⟨r, c, hr, hc, hbound, hq, hd⟩
    exact ⟨r, hr, c, hc, hbound, hq, hd⟩

/-! ### Cell-locality arithmetic -/

lemma abs_components_le (dx dy rad : ℚ) (hrad : 0 ≤ rad)
    (h : dx * dx + dy * dy ≤ rad * rad) : |dx| ≤ rad ∧ |dy| ≤ rad := by
  constructor <;> rw [abs_le] <;> constructor <;>
    nlinarith [mul_self_nonneg dx, mul_self_nonneg dy,
      mul_self_nonneg (dx - rad), mul_self_nonneg (dx + rad),
      mul_self_nonneg (dy - rad), mul_self_nonneg (dy + rad)]

/-- A particle coordinate `b` whose truncated cell index is in range and
that lies within `rad ≤ cs` of a nonnegative query coordinate `a` falls
in one of the three cells around the query coordinate's cell. -/
lemma cell_near (cs rad a b : ℚ) (hcs : 0 < cs) (hrc : rad ≤ cs)
    (ha : 0 ≤ a) (hab : |b - a| ≤ rad) (hbIn : 0 ≤ pyInt (b / cs)) :
    pyInt (a / cs) - 1 ≤ pyInt (b / cs) ∧ pyInt (b / cs) ≤ pyInt (a / cs) + 1 := by
  have hcs' : cs ≠ 0 := ne_of_gt hcs
  have hacs : 0 ≤ a / cs := div_nonneg ha hcs.le
  have hab' := abs_le.mp hab
  rw [pyInt, if_pos hacs]
  rcases le_or_lt 0 b with hb | hb
  · have hbcs : 0 ≤ b / cs := div_nonneg hb hcs.le
    rw [pyInt, if_pos hbcs]
    have e1 : (a - cs) / cs = a / cs - 1 := by field_simp
    have e2 : (a + cs) / cs = a / cs + 1 := by field_simp
    have h1 : (a - cs) / cs ≤ b / cs := by
      apply div_le_div_of_nonneg_right ?_ hcs.le
      linarith
    have h2 : b / cs ≤ (a + cs) / cs := by
      apply div_le_div_of_nonneg_right ?_ hcs.le
      linarith
    rw [e1] at h1
    rw [e2] at h2
    constructor
    · have := Int.floor_le_floor (α := ℚ) h1
      rw [show a / cs - 1 = a / cs + (-1 : ℤ) by push_cast; ring,
        Int.floor_add_int] at this
      omega
    · have := Int.floor_le_floor (α := ℚ) h2
      rw [show a / cs + 1 = a / cs + (1 : ℤ) by push_cast; ring,
        Int.floor_add_int] at this
      omega
  · have hbneg : b / cs < 0 := div_neg_of_neg_of_pos hb hcs
    have hbcs : ¬ 0 ≤ b / cs := not_le.mpr hbneg
    rw [pyInt, if_neg hbcs] at hbIn ⊢
    have hceil : ⌈b / cs⌉ = 0 :=
      le_antisymm (Int.ceil_le.mpr (by push_cast; exact hbneg.le)) hbIn
    rw [hceil]
    have hfl : 0 ≤ ⌊a / cs⌋ := Int.floor_nonneg.mpr hacs
    have halt : a / cs < 1 := by
      rw [div_lt_one hcs]
      linarith
    have : ⌊a / cs⌋ < 1 := by
      rw [show (1 : ℤ) = ((1 : ℤ) : ℤ) from rfl]
      exact Int.floor_lt.mpr (by push_cast; exact halt)
    omega

/-- C3: with cell size at least the query radius and an in-grid,
nonnegative query point, `query` on a freshly rebuilt index returns
exactly the inserted (in-cell-bounds) particles whose squared distance to
the query point is at most radius squared. -/
theorem query_returns_exactly_in_radius (w h cs rad x y : ℚ) (ps : List Particle)
    (q : Particle) (hcs : 0 < cs) (hrad : 0 ≤ rad) (hrc : rad ≤ cs)
    (hx : 0 ≤ x) (hy : 0 ≤ y) (hxw : x < w) (hyh : y < h) :
    q ∈ (insertAll (FixedGrid.empty w h cs) ps).query x y rad ↔
      q ∈ ps ∧ inCellBounds (FixedGrid.empty w h cs) q ∧
        (q.x - x) * (q.x - x) + (q.y - y) * (q.y - y) ≤ rad * rad := by
  have hcszw : (insertAll (FixedGrid.empty w h cs) ps).cell_size = cs :=
    insertAll_cell_size _ _
  have hrows : (insertAll (FixedGrid.empty w h cs) ps).rows =
      (FixedGrid.empty w h cs).rows := insertAll_rows _ _
  have hcols : (insertAll (FixedGrid.empty w h cs) ps).cols =
      (FixedGrid.empty w h cs).cols := insertAll_cols _ _
  rw [mem_query]
  constructor
  · rintro ⟨r, c, _, _, _, hcell, hdist⟩
    rw [mem_insertAll_cells] at hcell
    rcases hcell with hcell | ⟨hmem, hbound, _, _⟩
    · simp [FixedGrid.empty] at hcell
    · exact ⟨hmem, hbound, hdist⟩
  · rintro ⟨hmem, hbound, hdist⟩
    obtain ⟨hcx0, hcxlt, hcy0, hcylt⟩ := hbound
    have habs := abs_components_le (q.x - x) (q.y - y) rad hrad hdist
    have hnearx := cell_near cs rad x q.x hcs hrc hx habs.1 hcx0
    have hneary := cell_near cs rad y q.y hcs hrc hy habs.2 hcy0
    refine ⟨pyInt (q.y / cs), pyInt (q.x / cs), ?_, ?_, ?_, ?_, hdist⟩
    · rw [hcszw]; omega
    · rw [hcszw]; omega
    · rw [hrows, hcols]
      exact ⟨hcy0, hcylt, hcx0, hcxlt⟩
    · rw [mem_insertAll_cells]
      exact Or.inr ⟨hmem, ⟨hcx0, hcxlt, hcy0, hcylt⟩, rfl, rfl⟩

/-! ## SPH density and pressure -/

/-- One neighbor's contribution to the density sum in
`Particle.compute_density_pressure`: `(1 - dist/R)^2` when
`dist < R`, else nothing.  `sqrtQ` abstracts `math.sqrt`. -/
def densityTerm (sqrtQ : ℚ → ℚ) (R px py : ℚ) (n : Particle) : ℚ :=
  let dist := sqrtQ ((px - n.x) * (px - n.x) + (py - n.y) * (py - n.y))
  if dist < R then (1 - dist / R) * (1 - dist / R) else 0

/-- `Particle.compute_density_pressure`: query the spatial index at the
particle's own position with the smoothing radius, sum the kernel weights
of the returned neighbors, floor the density at 0.0001, and derive the
repulsive-only pressure. -/
def Particle.compute_density_pressure (sqrtQ : ℚ → ℚ) (prm : Params)
    (g : FixedGrid) (p : Particle) : Particle :=
  let neighbors := g.query p.x p.y prm.smoothing_radius
  let d := neighbors.foldl
    (fun acc n => acc + densityTerm sqrtQ prm.smoothing_radius p.x p.y n) 0
  let d := max d (1/10000)
  { p with density := d,
           pressure := prm.pressure_multiplier * max 0 (d - prm.target_density) }

/-- The pre-clamp pressure force accumulated over the neighbors in
`Particle.compute_pressure_force` (the loop before the clamp). -/
def Particle.pressure_force_raw (sqrtQ : ℚ → ℚ) (prm : Params)
    (g : FixedGrid) (p : Particle) : ℚ × ℚ :=
  (g.query p.x p.y prm.smoothing_radius).foldl
    (fun f n =>
      if n = p then f
      else
        let dx := p.x - n.x
        let dy := p.y - n.y
        let dist_sq := dx * dx + dy * dy
        if 0 < dist_sq ∧ dist_sq < prm.smoothing_radius * prm.smoothing_radius then
          let dist := sqrtQ dist_sq
          let qk := 1 - dist / prm.smoothing_radius
          let force := -((p.pressure + n.pressure) / (2 * n.density)) * qk
          (f.1 + dx / dist * force, f.2 + dy / dist * force)
        else f)
    (0, 0)

/-- The squared magnitude of the pre-clamp accumulated pressure force. -/
def Particle.pressure_force_sq (sqrtQ : ℚ → ℚ) (prm : Params)
    (g : FixedGrid) (p : Particle) : ℚ :=
  (p.pressure_force_raw sqrtQ prm g).1 * (p.pressure_force_raw sqrtQ prm g).1 +
  (p.pressure_force_raw sqrtQ prm g).2 * (p.pressure_force_raw sqrtQ prm g).2

/-- The clamp at the end of `Particle.compute_pressure_force`: when the
squared magnitude exceeds `0.5^2`, rescale by `0.5 / force_mag`. -/
def Particle.pressure_force_applied (sqrtQ : ℚ → ℚ) (prm : Params)
    (g : FixedGrid) (p : Particle) : ℚ × ℚ :=
  let f := p.pressure_force_raw sqrtQ prm g
  if f.1 * f.1 + f.2 * f.2 > (1/2) * (1/2) then
    (f.1 * ((1/2) / sqrtQ (f.1 * f.1 + f.2 * f.2)),
     f.2 * ((1/2) / sqrtQ (f.1 * f.1 + f.2 * f.2)))
  else f

/-- `Particle.compute_pressure_force`: accumulate the (possibly clamped)
pressure force into the pending acceleration via `apply_force`. -/
def Particle.compute_pressure_force (sqrtQ : ℚ → ℚ) (prm : Params)
    (g : FixedGrid) (p : Particle) : Particle :=
  p.apply_force (p.pressure_force_applied sqrtQ prm g).1
    (p.pressure_force_applied sqrtQ prm g).2

lemma foldl_add_map {α : Type} (f : α → ℚ) (l : List α) (a : ℚ) :
    l.foldl (fun acc n => acc + f n) a = a + (l.map f).sum := by
  induction l generalizing a with
  | nil => simp
  | cons x xs ih => simp [ih, add_assoc]

lemma densityTerm_nonneg (sqrtQ : ℚ → ℚ) (R px py : ℚ) (n : Particle) :
    0 ≤ densityTerm sqrtQ R px py n := by
  unfold densityTerm
  dsimp only
  split
  · exact mul_self_nonneg _
  · exact le_refl 0

/-- C7: after `compute_density_pressure` the density is at least the
epsilon floor 0.0001 (hence never zero), and when the spatial query
returns no neighbors it equals the floor exactly. -/
theorem density_floor (sqrtQ : ℚ → ℚ) (prm : Params) (g : FixedGrid) (p : Particle) :
    1/10000 ≤ (p.compute_density_pressure sqrtQ prm g).density ∧
    (p.compute_density_pressure sqrtQ prm g).density ≠ 0 ∧
    (g.query p.x p.y prm.smoothing_radius = [] →
      (p.compute_density_pressure sqrtQ prm g).density = 1/10000) := by
  have hdens : (p.compute_density_pressure sqrtQ prm g).density =
      max ((g.query p.x p.y prm.smoothing_radius).foldl
        (fun acc n => acc + densityTerm sqrtQ prm.smoothing_radius p.x p.y n) 0)
        (1/10000) := rfl
  refine ⟨?_, ?_, ?_⟩
  · rw [hdens]
    exact le_max_right _ _
  · rw [hdens]
    intro h
    have h2 : (1 : ℚ)/10000 ≤ 0 := h ▸ le_max_right _ _
    norm_num at h2
  · intro hq
    rw [hdens, hq]
    simp only [List.foldl_nil]
    exact max_eq_right (by norm_num)

/-- C10: a particle that was inserted into the index (its cell
coordinates in range) is returned by its own density query, contributes
the kernel weight 1 for itself, and therefore ends with density at least
1 — the 0.0001 floor never binds for an indexed particle.  Needs a
positive smoothing radius and that the square-root model sends 0 to 0. -/
theorem indexed_particle_density_ge_one (sqrtQ : ℚ → ℚ) (prm : Params)
    (w h : ℚ) (ps : List Particle) (p : Particle)
    (hmem : p ∈ ps)
    (hin : inCellBounds (FixedGrid.empty w h prm.smoothing_radius) p)
    (hR : 0 < prm.smoothing_radius) (hs0 : sqrtQ 0 = 0) :
    1 ≤ (p.compute_density_pressure sqrtQ prm
      (insertAll (FixedGrid.empty w h prm.smoothing_radius) ps)).density := by
  set g := insertAll (FixedGrid.empty w h prm.smoothing_radius) ps with hg
  have hcsz : g.cell_size = prm.smoothing_radius := insertAll_cell_size _ _
  have hself : p ∈ g.query p.x p.y prm.smoothing_radius := by
    rw [mem_query]
    obtain ⟨hcx0, hcxlt, hcy0, hcylt⟩ := hin
    refine ⟨pyInt (p.y / prm.smoothing_radius), pyInt (p.x / prm.smoothing_radius),
      ?_, ?_, ?_, ?_, ?_⟩
    · rw [hcsz]; omega
    · rw [hcsz]; omega
    · rw [hg, insertAll_rows, insertAll_cols]
      exact ⟨hcy0, hcylt, hcx0, hcxlt⟩
    · rw [hg, mem_insertAll_cells]
      exact Or.inr ⟨hmem, ⟨hcx0, hcxlt, hcy0, hcylt⟩, rfl, rfl⟩
    · nlinarith [mul_self_nonneg prm.smoothing_radius]
  have hterm : densityTerm sqrtQ prm.smoothing_radius p.x p.y p = 1 := by
    unfold densityTerm
    have harg : (p.x - p.x) * (p.x - p.x) + (p.y - p.y) * (p.y - p.y) = 0 := by ring
    rw [harg, hs0, if_pos hR]
    norm_num
  unfold Particle.compute_density_pressure
  dsimp only
  rw [foldl_add_map]
  refine le_trans ?_ (le_max_left _ _)
  rw [zero_add]
  calc (1 : ℚ) = densityTerm sqrtQ prm.smoothing_radius p.x p.y p := hterm.symm
    _ ≤ _ := by
        apply List.single_le_sum
        · intro z hz
          rw [List.mem_map] at hz
          obtain ⟨n, _, rfl⟩ := hz
          exact densityTerm_nonneg _ _ _ _ _
        · exact List.mem_map_of_mem _ hself

/-- C6: the pressure force actually accumulated by
`compute_pressure_force` has squared magnitude at most `0.5^2`; when the
raw accumulated force exceeds the cap it is rescaled to magnitude exactly
0.5.  The hypothesis states that `sqrtQ` is a correct nonnegative square
root at the one value the clamp applies it to. -/
theorem pressure_force_clamped (sqrtQ : ℚ → ℚ) (prm : Params)
    (g : FixedGrid) (p : Particle)
    (hs : 0 ≤ sqrtQ (p.pressure_force_sq sqrtQ prm g) ∧
      sqrtQ (p.pressure_force_sq sqrtQ prm g) *
        sqrtQ (p.pressure_force_sq sqrtQ prm g) = p.pressure_force_sq sqrtQ prm g) :
    ((p.pressure_force_applied sqrtQ prm g).1 * (p.pressure_force_applied sqrtQ prm g).1 +
      (p.pressure_force_applied sqrtQ prm g).2 * (p.pressure_force_applied sqrtQ prm g).2
        ≤ (1/2) * (1/2)) ∧
    (p.pressure_force_sq sqrtQ prm g > (1/2) * (1/2) →
      (p.pressure_force_applied sqrtQ prm g).1 * (p.pressure_force_applied sqrtQ prm g).1 +
      (p.pressure_force_applied sqrtQ prm g).2 * (p.pressure_force_applied sqrtQ prm g).2
        = (1/2) * (1/2)) ∧
    (p.compute_pressure_force sqrtQ prm g).ax =
      p.ax + (p.pressure_force_applied sqrtQ prm g).1 ∧
    (p.compute_pressure_force sqrtQ prm g).ay =
      p.ay + (p.pressure_force_applied sqrtQ prm g).2 := by
  obtain ⟨hm0, hmsq⟩ := hs
  unfold Particle.pressure_force_sq at hmsq
  have key : Particle.pressure_force_applied sqrtQ prm g p =
      if (p.pressure_force_raw sqrtQ prm g).1 * (p.pressure_force_raw sqrtQ prm g).1 +
          (p.pressure_force_raw sqrtQ prm g).2 * (p.pressure_force_raw sqrtQ prm g).2 >
          (1/2) * (1/2) then
        ((p.pressure_force_raw sqrtQ prm g).1 *
          ((1/2) / sqrtQ ((p.pressure_force_raw sqrtQ prm g).1 *
            (p.pressure_force_raw sqrtQ prm g).1 +
            (p.pressure_force_raw sqrtQ prm g).2 * (p.pressure_force_raw sqrtQ prm g).2)),
         (p.pressure_force_raw sqrtQ prm g).2 *
          ((1/2) / sqrtQ ((p.pressure_force_raw sqrtQ prm g).1 *
            (p.pressure_force_raw sqrtQ prm g).1 +
            (p.pressure_force_raw sqrtQ prm g).2 * (p.pressure_force_raw sqrtQ prm g).2)))
      else p.pressure_force_raw sqrtQ prm g := rfl
  set fx := (p.pressure_force_raw sqrtQ prm g).1 with hfx
  set fy := (p.pressure_force_raw sqrtQ prm g).2 with hfy
  set m := sqrtQ (fx * fx + fy * fy) with hm
  have hsq : Particle.pressure_force_sq sqrtQ prm g p = fx * fx + fy * fy := rfl
  rw [hsq]
  by_cases hbig : fx * fx + fy * fy > (1/2) * (1/2)
  · have hmne : m ≠ 0 := by
      intro h0
      rw [h0] at hmsq
      simp only [mul_zero, zero_mul] at hmsq
      nlinarith
    have hmm : m * m ≠ 0 := mul_ne_zero hmne hmne
    have hmag : (fx * ((1/2) / m)) * (fx * ((1/2) / m)) +
        (fy * ((1/2) / m)) * (fy * ((1/2) / m)) = (1/2) * (1/2) := by
      have e : (fx * ((1/2) / m)) * (fx * ((1/2) / m)) +
          (fy * ((1/2) / m)) * (fy * ((1/2) / m)) =
          (fx * fx + fy * fy) / (m * m) * ((1/2) * (1/2)) := by
        ring
      rw [e, ← hmsq, div_self hmm, one_mul]
    rw [key, if_pos hbig]
    refine ⟨le_of_eq hmag, fun _ => hmag, ?_, ?_⟩ <;>
      · unfold Particle.compute_pressure_force Particle.apply_force
        rw [key, if_pos hbig]
  · rw [key, if_neg hbig]
    push_neg at hbig
    refine ⟨hbig, fun hc => absurd hc (not_lt.mpr hbig), ?_, ?_⟩ <;>
      · unfold Particle.compute_pressure_force Particle.apply_force
        rw [key, if_neg (not_lt.mpr hbig)]

/-! ## Particle.update: integration and obstacle collision -/

/-- One iteration of the obstacle loop in `Particle.update`.  `hyp`
abstracts `math.hypot`.  The state is `(next_x, next_y, vx, vy)`.
Returns `none` when the Python code would raise `ZeroDivisionError`:
the branch `dist < min_dist` is taken with `dist = 0`, so the source line
`nx = dx / dist` divides by zero.  There is no special case for a zero
distance in the source. -/
def collideStep (hyp : ℚ → ℚ → ℚ) (pradius : ℚ)
    (st : Option (ℚ × ℚ × ℚ × ℚ)) (obs : Obstacle) : Option (ℚ × ℚ × ℚ × ℚ) :=
  match st with
  | none => none
  | some (nx, ny, vx, vy) =>
    let dx := nx - obs.x
    let dy := ny - obs.y
    let dist := hyp dx dy
    let min_dist := obs.radius + pradius * (1/2)
    if dist < min_dist then
      if dist = 0 then none
      else
        let nnx := dx / dist
        let nny := dy / dist
        let overlap := min_dist - dist
        let nx' := nx + nnx * overlap
        let ny' := ny + nny * overlap
        let dt := vx * nnx + vy * nny
        let vx' := (vx - 2 * dt * nnx) * (1/2)
        let vy' := (vy - 2 * dt * nny) * (1/2)
        some (nx', ny', vx', vy')
    else some (nx, ny, vx, vy)

/-- Embedding of `Particle.update`.  `hyp` abstracts `math.hypot`, `F`
abstracts `vector_grid.get_force`, and `wind_var` is the frame's random
wind jitter draw from `random.uniform(-0.005, 0.005)`.  Returns `none`
exactly when the obstacle loop divides by zero (see `collideStep`). -/
def Particle.update (hyp : ℚ → ℚ → ℚ) (obstacles : List Obstacle)
    (F : ℚ → ℚ → ℚ → ℚ × ℚ) (wind_var : ℚ) (prm : Params)
    (p : Particle) : Option Particle :=
  let p := p.apply_force 0 prm.gravity
  let p := p.apply_force 0 (-prm.buoyancy)
  let p := p.apply_force (prm.wind + wind_var) 0
  let p :=
    if 0 < prm.turbulence_strength then
      if prm.use_rk4 then
        let f := rk4TurbForce F p.x p.y p.vx p.vy prm.time prm.turbulence_strength
        p.apply_force f.1 f.2
      else
        let c := F p.x p.y prm.time
        p.apply_force (c.1 * prm.turbulence_strength) (c.2 * prm.turbulence_strength)
    else p
  let vx := (p.vx + p.ax) * prm.drag
  let vy := (p.vy + p.ay) * prm.drag
  let nx := p.x + vx
  let ny := p.y + vy
  match obstacles.foldl (collideStep hyp p.radius) (some (nx, ny, vx, vy)) with
  | none => none
  | some (nx', ny', vx', vy') =>
    some { p with x := nx', y := ny', vx := vx', vy := vy',
                  ax := 0, ay := 0,
                  life := p.life - p.decay,
                  radius := p.radius + p.growth }

/-- A hypot model used at concrete inputs: any function agreeing with
`math.hypot` on the diagonal point (0, 0), where `hypot` is exactly 0. -/
def hyp0 : ℚ → ℚ → ℚ := fun dx dy => if dx = 0 ∧ dy = 0 then 0 else 1

/-- Parameter configuration isolating the collision step: no gravity,
buoyancy, wind, drag damping or turbulence. -/
def prmCollide : Params :=
  { gravity := 0, buoyancy := 0, wind := 0, drag := 1,
    turbulence_strength := 0, noise_scale := 1/200, use_rk4 := true,
    time := 0, smoothing_radius := 30, target_density := 1,
    pressure_multiplier := 1/10 }

/-- A particle at rest at (500, 350). -/
def pAtObstacle : Particle :=
  { x := 500, y := 350, vx := 0, vy := 0, ax := 0, ay := 0,
    life := 255, decay := 1, radius := 4, growth := 1/20,
    density := 0, pressure := 0 }

/-- C1: contrary to the claim, a particle whose tentative next position
coincides exactly with an obstacle center is NOT skipped: the branch
`dist < min_dist` is taken with `dist = 0` and the source divides by
zero (`nx = dx / dist`), modelled here as `update` returning `none`
(an uncaught `ZeroDivisionError`) instead of a no-interaction result. -/
theorem update_zero_distance_divides_by_zero :
    Particle.update hyp0 [⟨500, 350, 60⟩] (fun _ _ _ => (0, 0)) 0
      prmCollide pAtObstacle = none := by
  norm_num [Particle.update, Particle.apply_force, collideStep, hyp0,
    prmCollide, pAtObstacle]

/-- C5: one `update` of a particle at (500, 600) at rest with zero
pending acceleration, turbulence 0, wind 0, buoyancy 0.10, gravity 0.05,
drag 0.99 and no obstacles yields velocity.y = (0.05 - 0.10) * 0.99 =
-0.0495 and position.y = 600 - 0.0495 exactly, for every hypot model,
field, wind jitter draw, integrator flag and remaining particle state. -/
theorem one_frame_buoyant_rise (hyp : ℚ → ℚ → ℚ) (F : ℚ → ℚ → ℚ → ℚ × ℚ)
    (wv : ℚ) (b : Bool) (t ns sr td pm life decay radius growth density pressure : ℚ) :
    ∃ p' : Particle,
      Particle.update hyp [] F wv
        { gravity := 1/20, buoyancy := 1/10, wind := 0, drag := 99/100,
          turbulence_strength := 0, noise_scale := ns, use_rk4 := b,
          time := t, smoothing_radius := sr, target_density := td,
          pressure_multiplier := pm }
        { x := 500, y := 600, vx := 0, vy := 0, ax := 0, ay := 0,
          life := life, decay := decay, radius := radius, growth := growth,
          density := density, pressure := pressure } = some p'
      ∧ p'.vy = -(99/2000) ∧ p'.y = 600 - 99/2000 := by
  refine ⟨_, rfl, ?_, ?_⟩ <;>
    norm_num [Particle.update, Particle.apply_force]

/-! ## ParticlePool -/

/-- The random draws consumed by `Particle.reset`: `vx0` stands for
`cos(angle) * speed`, `vy0` for `sin(angle) * speed`, `decay` for the
jittered decay draw, `radius` for the initial radius draw. -/
structure ResetRand where
  vx0 : ℚ
  vy0 : ℚ
  decay : ℚ
  radius : ℚ
deriving DecidableEq

/-- `Particle.reset`: reinitialize a slot's full state as freshly
spawned at (x, y).  Every slot field is overwritten, so the previous
state `_p` is discarded. -/
def Particle.reset (_p : Particle) (x y : ℚ) (r : ResetRand) : Particle :=
  { x := x, y := y, vx := r.vx0, vy := r.vy0 - 1, ax := 0, ay := 0,
    life := 255, decay := r.decay, radius := r.radius, growth := 1/20,
    density := 0, pressure := 0 }

/-- Embedding of `ParticlePool`: the free list (`pool`) and the list of
active particles. -/
structure ParticlePool where
  pool : List Particle
  active_particles : List Particle
deriving DecidableEq

/-- `ParticlePool.get`: if the free list is empty return `None` and
change nothing; otherwise pop its last element (`list.pop()`), reset it,
and append it to the active list. -/
def ParticlePool.get (s : ParticlePool) (x y : ℚ) (r : ResetRand) :
    Option Particle × ParticlePool :=
  match s.pool.getLast? with
  | none => (none, s)
  | some p =>
    (some (p.reset x y r),
      { pool := s.pool.dropLast,
        active_particles := s.active_particles ++ [p.reset x y r] })

/-- `ParticlePool.return_particle`: move the particle from the active
list back to the free list; a no-op when it is not active. -/
def ParticlePool.return_particle (s : ParticlePool) (p : Particle) : ParticlePool :=
  if p ∈ s.active_particles then
    { pool := s.pool ++ [p], active_particles := s.active_particles.erase p }
  else s

/-- A pool operation: an acquire (with its spawn point and random draws)
or a release. -/
inductive PoolOp where
  | get (x y : ℚ) (r : ResetRand)
  | ret (p : Particle)
deriving DecidableEq

/-- Apply one pool operation to the pool state. -/
def applyOp (s : ParticlePool) : PoolOp → ParticlePool
  | .get x y r => (s.get x y r).2
  | .ret p => s.return_particle p

/-- Run a sequence of pool operations. -/
def runOps (s : ParticlePool) (ops : List PoolOp) : ParticlePool :=
  ops.foldl applyOp s

lemma applyOp_slots (s : ParticlePool) (op : PoolOp) :
    (applyOp s op).pool.length + (applyOp s op).active_particles.length =
      s.pool.length + s.active_particles.length := by
  cases op with
  | get x y r =>
    have he : applyOp s (.get x y r) = (s.get x y r).2 := rfl
    rw [he]
    unfold ParticlePool.get
    cases hl : s.pool.getLast? with
    | none => rfl
    | some p =>
      have hne : s.pool ≠ [] := by
        intro h
        rw [h] at hl
        simp at hl
      have hlen : s.pool.length ≠ 0 := fun h => hne (List.length_eq_zero.mp h)
      simp only [List.length_dropLast, List.length_append, List.length_singleton]
      omega
  | ret p =>
    have he : applyOp s (.ret p) = s.return_particle p := rfl
    rw [he]
    unfold ParticlePool.return_particle
    split
    · rename_i hmem
      simp only [List.length_append, List.length_singleton,
        List.length_erase_of_mem hmem]
      have : s.active_particles.length ≠ 0 := by
        intro h
        rw [List.length_eq_zero.mp h] at hmem
        simp at hmem
      omega
    · rfl

/-- C8: slot conservation.  (i) Any sequence of `get`/`return_particle`
operations preserves free + active = N; (ii) `get` yields `None` exactly
when the free list is empty, in which case the state is unchanged (no
extra slot is ever allocated); (iii) `return_particle` of a non-active
particle is a no-op. -/
theorem pool_slot_conservation (N : ℕ) :
    (∀ (init : ParticlePool) (ops : List PoolOp),
      init.pool.length + init.active_particles.length = N →
      (runOps init ops).pool.length + (runOps init ops).active_particles.length = N) ∧
    (∀ (s : ParticlePool) (x y : ℚ) (r : ResetRand),
      ((s.get x y r).1 = none ↔ s.pool = []) ∧
      (s.pool = [] → (s.get x y r).2 = s)) ∧
    (∀ (s : ParticlePool) (p : Particle),
      p ∉ s.active_particles → s.return_particle p = s) := by
  refine ⟨?_, ?_, ?_⟩
  · intro init ops hinit
    induction ops generalizing init with
    | nil => exact hinit
    | cons op ops ih =>
      rw [runOps, List.foldl_cons, ← runOps]
      exact ih _ ((applyOp_slots init op).trans hinit)
  · intro s x y r
    constructor
    · have hfst : (s.get x y r).1 = none ↔ s.pool.getLast? = none := by
        unfold ParticlePool.get
        cases s.pool.getLast? <;> simp
      rw [hfst, List.getLast?_eq_none_iff]
    · intro h
      unfold ParticlePool.get
      rw [h]
      rfl
  · intro s p hp
    unfold ParticlePool.return_particle
    rw [if_neg hp]

/-! ## Out-of-bounds insertion (C9) -/

/-- A particle just past the right edge of the simulated area
(x = 1010 with width = 1000), inside the ceil-overhang of the cell grid
(cell column 33 < cols = 34 for cell size 30). -/
def pOverhang : Particle :=
  { x := 1010, y := 100, vx := 0, vy := 0, ax := 0, ay := 0,
    life := 255, decay := 1, radius := 4, growth := 1/20,
    density := 0, pressure := 0 }

/-- C9 counterexample: with the constructor dimensions (1000 x 700) and
cell size 30, the particle at (1010, 100) lies outside the simulated
area [0, width) x [0, height), yet `insert` does modify a cell and a
subsequent `query` returns it — because `cols = ceil(1000/30) = 34`
covers x-cells up to 34·30 = 1020. -/
theorem out_of_area_insert_not_dropped :
    (¬ (0 ≤ pOverhang.x ∧ pOverhang.x < 1000 ∧ 0 ≤ pOverhang.y ∧ pOverhang.y < 700)) ∧
    (FixedGrid.insert (FixedGrid.empty 1000 700 30) pOverhang).cells 3 33 ≠
      (FixedGrid.empty 1000 700 30).cells 3 33 ∧
    pOverhang ∈ (FixedGrid.insert (FixedGrid.empty 1000 700 30) pOverhang).query
      1010 100 30 := by
  have hbound : inCellBounds (FixedGrid.empty 1000 700 30) pOverhang := by
    unfold inCellBounds pyInt FixedGrid.cols FixedGrid.rows FixedGrid.empty pOverhang
    norm_num
    constructor
    · exact Int.lt_ceil.mpr (by norm_num)
    · exact Int.lt_ceil.mpr (by norm_num)
  refine ⟨by norm_num [pOverhang], ?_, ?_⟩
  · rw [FixedGrid.insert, if_pos hbound]
    unfold pOverhang FixedGrid.empty pyInt
    norm_num
  · rw [mem_query, FixedGrid.insert, if_pos hbound]
    refine ⟨3, 33, ?_⟩
    unfold FixedGrid.empty FixedGrid.rows FixedGrid.cols pyInt pOverhang
    norm_num
    exact ⟨Int.lt_ceil.mpr (by norm_num), Int.lt_ceil.mpr (by norm_num)⟩

/-- C9 (amended): `insert` silently drops a particle — leaving the grid,
hence every cell and every subsequent query result, unchanged and
raising no error — exactly when the particle's truncated cell
coordinates fall outside the cell ranges `[0, cols) x [0, rows)` (not
when its position is outside the simulated area `[0, width) x
[0, height)`, which differs on the ceil-overhang strip and on small
negative coordinates). -/
theorem out_of_cell_bounds_insert_noop (g : FixedGrid) (p : Particle)
    (h : ¬ inCellBounds g p) :
    g.insert p = g ∧ ∀ x y rad : ℚ, (g.insert p).query x y rad = g.query x y rad := by
  have hins : g.insert p = g := by
    unfold FixedGrid.insert
    exact if_neg h
  exact ⟨hins, fun x y rad => by rw [hins]⟩

/-! ## Concrete witnesses -/

/-- Square-root model for witnesses: a nonnegative correct square root
at the inputs 0, 9 and 81. -/
def sqrt6 : ℚ → ℚ := fun q => if q = 9 then 3 else if q = 81 then 9 else 0

/-- Witness neighbor: a particle at (3, 0) with pressure 10, density 1. -/
def n6 : Particle :=
  { x := 3, y := 0, vx := 0, vy := 0, ax := 0, ay := 0,
    life := 255, decay := 1, radius := 4, growth := 1/20,
    density := 1, pressure := 10 }

/-- Witness particle at the origin with pressure 10. -/
def p6 : Particle :=
  { x := 0, y := 0, vx := 0, vy := 0, ax := 0, ay := 0,
    life := 255, decay := 1, radius := 4, growth := 1/20,
    density := 1, pressure := 10 }

/-- Witness grid holding only `n6`. -/
def g6 : FixedGrid := insertAll (FixedGrid.empty 100 100 30) [n6]

lemma g6_query : g6.query p6.x p6.y Params.defaults.smoothing_radius = [n6] := by
  norm_num [g6, insertAll, FixedGrid.query, FixedGrid.insert, FixedGrid.empty,
    inCellBounds, pyInt, FixedGrid.cols, FixedGrid.rows, n6, p6, Params.defaults]

lemma p6_raw : p6.pressure_force_raw sqrt6 Params.defaults g6 = (9, 0) := by
  rw [Particle.pressure_force_raw, g6_query]
  norm_num [p6, n6, sqrt6, Params.defaults]

lemma p6_sq : p6.pressure_force_sq sqrt6 Params.defaults g6 = 81 := by
  rw [Particle.pressure_force_sq, p6_raw]
  norm_num

/-- Witness for the pressure clamp (C6): the raw force (9, 0) of
magnitude 9 exceeds the cap and is rescaled to magnitude exactly 0.5. -/
theorem pressure_clamp_witness :
    (p6.pressure_force_applied sqrt6 Params.defaults g6).1 *
      (p6.pressure_force_applied sqrt6 Params.defaults g6).1 +
    (p6.pressure_force_applied sqrt6 Params.defaults g6).2 *
      (p6.pressure_force_applied sqrt6 Params.defaults g6).2 = (1/2) * (1/2) :=
  (pressure_force_clamped sqrt6 Params.defaults g6 p6
      (by rw [p6_sq]; norm_num [sqrt6])).2.1 (by rw [p6_sq]; norm_num)

/-- A query on a freshly constructed (all-empty) grid returns nothing. -/
lemma query_empty (w h c x y rad : ℚ) :
    (FixedGrid.empty w h c).query x y rad = [] := by
  simp [FixedGrid.query, FixedGrid.empty]

/-- A zero square-root model. -/
def sqrtW : ℚ → ℚ := fun _ => 0

/-- Witness particle at (5, 5). -/
def pW : Particle :=
  { x := 5, y := 5, vx := 0, vy := 0, ax := 0, ay := 0,
    life := 255, decay := 1, radius := 4, growth := 1/20,
    density := 0, pressure := 0 }

/-- Witness for the density floor (C7): with no neighbors the density is
exactly 0.0001. -/
theorem density_floor_witness :
    (pW.compute_density_pressure sqrtW Params.defaults
      (FixedGrid.empty 100 100 30)).density = 1/10000 :=
  (density_floor sqrtW Params.defaults (FixedGrid.empty 100 100 30) pW).2.2
    (query_empty 100 100 30 pW.x pW.y Params.defaults.smoothing_radius)

/-- Witness for C10: the particle at (5, 5) indexed into a 100 x 100
grid of cell size 30 ends with density at least 1. -/
theorem indexed_density_witness :
    1 ≤ (pW.compute_density_pressure sqrtW Params.defaults
      (insertAll (FixedGrid.empty 100 100 Params.defaults.smoothing_radius) [pW])).density :=
  indexed_particle_density_ge_one sqrtW Params.defaults 100 100 [pW] pW
    (by simp)
    (by
      unfold inCellBounds pyInt FixedGrid.cols FixedGrid.rows FixedGrid.empty pW
        Params.defaults
      norm_num)
    (by norm_num [Params.defaults])
    rfl

/-- Witness particle at (12, 12). -/
def q3 : Particle :=
  { x := 12, y := 12, vx := 0, vy := 0, ax := 0, ay := 0,
    life := 255, decay := 1, radius := 4, growth := 1/20,
    density := 0, pressure := 0 }

/-- Witness for C3: querying at (15, 15) with radius 10 on a grid of
cell size 10 returns the inserted particle at (12, 12). -/
theorem query_exact_witness :
    q3 ∈ (insertAll (FixedGrid.empty 100 100 10) [q3]).query 15 15 10 :=
  (query_returns_exactly_in_radius 100 100 10 10 15 15 [q3] q3
      (by norm_num) (by norm_num) (by norm_num) (by norm_num) (by norm_num)
      (by norm_num) (by norm_num)).mpr
    ⟨by simp,
     by
       unfold inCellBounds pyInt FixedGrid.cols FixedGrid.rows FixedGrid.empty q3
       norm_num,
     by norm_num [q3]⟩

/-- Witness random draws. -/
def rW : ResetRand := { vx0 := 1, vy0 := 1, decay := 1, radius := 4 }

/-- Witness for C8: a capacity-2 pool keeps free + active = 2 across a
get/return/get sequence; get on an empty free list yields none; a
return of a non-active particle is a no-op. -/
theorem pool_conservation_witness :
    ((runOps ⟨[pW, q3], []⟩ [PoolOp.get 1 2 rW, PoolOp.ret (q3.reset 1 2 rW),
        PoolOp.get 3 4 rW]).pool.length +
      (runOps ⟨[pW, q3], []⟩ [PoolOp.get 1 2 rW, PoolOp.ret (q3.reset 1 2 rW),
        PoolOp.get 3 4 rW]).active_particles.length = 2) ∧
    (((⟨[], [pW]⟩ : ParticlePool).get 0 0 rW).1 = none) ∧
    ((⟨[], []⟩ : ParticlePool).return_particle pW = (⟨[], []⟩ : ParticlePool)) :=
  ⟨(pool_slot_conservation 2).1 ⟨[pW, q3], []⟩ _ (by simp),
   ((pool_slot_conservation 2).2.1 ⟨[], [pW]⟩ 0 0 rW).1.mpr rfl,
   (pool_slot_conservation 2).2.2 ⟨[], []⟩ pW (by simp)⟩

/-- Witness particle at (-40, 100), left of the simulated area. -/
def pNeg : Particle :=
  { x := -40, y := 100, vx := 0, vy := 0, ax := 0, ay := 0,
    life := 255, decay := 1, radius := 4, growth := 1/20,
    density := 0, pressure := 0 }

/-- Witness for C9 (amended): inserting the particle at (-40, 100),
whose cell column is -1, leaves the grid unchanged. -/
theorem insert_noop_witness :
    FixedGrid.insert (FixedGrid.empty 1000 700 30) pNeg = FixedGrid.empty 1000 700 30 := by
  apply (out_of_cell_bounds_insert_noop (FixedGrid.empty 1000 700 30) pNeg ?_).1
  intro hb
  have h0 := hb.1
  have hx : pyInt (pNeg.x / (FixedGrid.empty 1000 700 30).cell_size) =
      ⌈(-40 : ℚ)/30⌉ := by
    unfold pyInt pNeg FixedGrid.empty
    norm_num
  have hc : (⌈(-40 : ℚ)/30⌉ : ℤ) ≤ -1 := Int.ceil_le.mpr (by norm_num)
  rw [hx] at h0
  omega

end SmokeSim
